import Mathlib

/-!
Verification of the resource authorization and transformation engine of the
django-jsonapi-framework repository, as a shallow embedding in Lean 4.

Layout:
* character and identifier-case utilities (utils.py);
* value, record and association-list primitives (Django model instances);
* permission conditions (permissions.py and auth/permissions.py);
* profiles and the profile resolver;
* the validation-error classifier (exceptions.py, ErrorMiddleware);
* the resource transformer and endpoint controller (views.py, models.py);
* theorems about the claims of the specification.
-/

namespace Djf

/-! ## Character utilities

Python string methods used by utils.py operate on ASCII identifier
characters here; the embeddings mirror the ASCII behaviour of
str.lower, str.upper, str.title and str.isalpha via character codes. -/

/-- ASCII uppercase letter test, by character code. -/
def isUpperA (c : Char) : Bool := 65 ≤ c.toNat && c.toNat ≤ 90

/-- ASCII lowercase letter test, by character code. -/
def isLowerA (c : Char) : Bool := 97 ≤ c.toNat && c.toNat ≤ 122

/-- ASCII digit test, by character code. -/
def isDigitA (c : Char) : Bool := 48 ≤ c.toNat && c.toNat ≤ 57

/-- ASCII letter test (Python cased characters, restricted to ASCII). -/
def isAlphaA (c : Char) : Bool := isUpperA c || isLowerA c

/-- ASCII lowercasing, as Python str.lower on ASCII input. -/
def toLowerA (c : Char) : Char :=
  if isUpperA c then Char.ofNat (c.toNat + 32) else c

/-- ASCII uppercasing, as Python str.upper on ASCII input. -/
def toUpperA (c : Char) : Char :=
  if isLowerA c then Char.ofNat (c.toNat - 32) else c

/-! ## Case conversion (utils.py) -/

/-- Body of camel_case_to_snake_case after the first character: the regular
expression with a negative lookbehind for the string start inserts an
underscore before every capital letter, and the result is lowercased. -/
def camelToSnakeAux : List Char → List Char
  | [] => []
  | c :: rest =>
    (if isUpperA c then ['_', toLowerA c] else [toLowerA c]) ++ camelToSnakeAux rest

/-- utils.camel_case_to_snake_case: insert an underscore before every capital
letter except at position zero, then lowercase the whole string. -/
def camel_case_to_snake_case (s : String) : String :=
  match s.data with
  | [] => String.mk []
  | c :: rest => String.mk (toLowerA c :: camelToSnakeAux rest)

/-- Python value.split with a single underscore separator, on character
lists: empty components are kept, and the empty string yields one empty
component. -/
def splitUnderscore : List Char → List (List Char)
  | [] => [[]]
  | c :: rest =>
    if c = '_' then [] :: splitUnderscore rest
    else
      match splitUnderscore rest with
      | [] => [[c]]
      | g :: gs => (c :: g) :: gs

/-- Python str.title on ASCII input: an alphabetic character is uppercased
when the previous character is not alphabetic and lowercased otherwise;
other characters pass through. The flag records whether the previous
character was alphabetic. -/
def titleAux : Bool → List Char → List Char
  | _, [] => []
  | prevAlpha, c :: rest =>
    if isAlphaA c then
      (if prevAlpha then toLowerA c else toUpperA c) :: titleAux true rest
    else
      c :: titleAux false rest

/-- Python str.title of one underscore-free component. -/
def titleCase (l : List Char) : List Char := titleAux false l

/-- utils.snake_case_to_camel_case: split on underscores, keep the first
component, and append the title-cased remaining components. -/
def snake_case_to_camel_case (s : String) : String :=
  match splitUnderscore s.data with
  | [] => String.mk []
  | c0 :: cs => String.mk (c0 ++ (cs.map titleCase).flatten)

/-! ## Well-formed snake-case identifiers

The translation pair is inverse on underscore-separated lowercase
identifiers whose non-first components start with a letter and carry
digits only at the end; these predicates delimit that grammar. -/

/-- Characters allowed in a snake-case component. -/
def isSnakeChar (c : Char) : Bool := isLowerA c || isDigitA c

/-- A run of lowercase letters followed by a run of digits. -/
def lettersThenDigits : List Char → Bool
  | [] => true
  | c :: rest => if isLowerA c then lettersThenDigits rest else (c :: rest).all isDigitA

/-- A valid first component: nonempty, lowercase letters and digits. -/
def goodComp0 (l : List Char) : Bool := !l.isEmpty && l.all isSnakeChar

/-- A valid later component: nonempty, starts with a lowercase letter, and
is a letter run followed by a digit run. -/
def goodCompRest : List Char → Bool
  | [] => false
  | c :: rest => isLowerA c && lettersThenDigits rest

/-- A well-formed snake-case identifier, by its underscore split. -/
def goodSnake (s : String) : Bool :=
  match splitUnderscore s.data with
  | [] => false
  | c0 :: cs => goodComp0 c0 && cs.all goodCompRest

/-! ## Character lemmas -/

theorem toNat_ofNat_of_lt {n : Nat} (h : n < 55296) : (Char.ofNat n).toNat = n := by
  unfold Char.ofNat Char.toNat
  split
  · rfl
  · omega

theorem toLowerA_of_not_upper {c : Char} (h : isUpperA c = false) : toLowerA c = c := by
  simp [toLowerA, h]

theorem isUpperA_false_of_snake {c : Char} (h : isSnakeChar c = true) :
    isUpperA c = false := by
  simp only [isSnakeChar, isLowerA, isDigitA, Bool.or_eq_true, Bool.and_eq_true,
    decide_eq_true_eq] at h
  simp only [isUpperA, Bool.and_eq_false_iff, decide_eq_false_iff_not, not_le]
  omega

theorem isSnakeChar_of_lower {c : Char} (h : isLowerA c = true) : isSnakeChar c = true := by
  simp [isSnakeChar, h]

theorem isSnakeChar_of_digit {c : Char} (h : isDigitA c = true) : isSnakeChar c = true := by
  simp [isSnakeChar, h]

theorem snakeChar_ne_underscore {c : Char} (h : isSnakeChar c = true) : c ≠ '_' := by
  simp only [isSnakeChar, isLowerA, isDigitA, Bool.or_eq_true, Bool.and_eq_true,
    decide_eq_true_eq] at h
  intro he
  subst he
  simp at h

theorem toNat_toUpperA_of_lower {c : Char} (h : isLowerA c = true) :
    (toUpperA c).toNat = c.toNat - 32 := by
  simp only [isLowerA, Bool.and_eq_true, decide_eq_true_eq] at h
  simp only [toUpperA, isLowerA]
  rw [if_pos (by simp only [Bool.and_eq_true, decide_eq_true_eq]; omega)]
  exact toNat_ofNat_of_lt (by omega)

theorem isUpperA_toUpperA_of_lower {c : Char} (h : isLowerA c = true) :
    isUpperA (toUpperA c) = true := by
  have ht := toNat_toUpperA_of_lower h
  simp only [isLowerA, Bool.and_eq_true, decide_eq_true_eq] at h
  simp only [isUpperA, Bool.and_eq_true, decide_eq_true_eq, ht]
  omega

theorem toLowerA_toUpperA_of_lower {c : Char} (h : isLowerA c = true) :
    toLowerA (toUpperA c) = c := by
  have ht := toNat_toUpperA_of_lower h
  have hu := isUpperA_toUpperA_of_lower h
  simp only [isLowerA, Bool.and_eq_true, decide_eq_true_eq] at h
  simp only [toLowerA, hu, if_true, ht]
  have hv : c.toNat - 32 + 32 = c.toNat := by omega
  rw [hv]
  exact Char.ofNat_toNat c

theorem isAlphaA_of_lower {c : Char} (h : isLowerA c = true) : isAlphaA c = true := by
  simp [isAlphaA, h]

theorem isAlphaA_false_of_digit {c : Char} (h : isDigitA c = true) : isAlphaA c = false := by
  simp only [isDigitA, Bool.and_eq_true, decide_eq_true_eq] at h
  simp only [isAlphaA, isUpperA, isLowerA, Bool.or_eq_false_iff, Bool.and_eq_false_iff,
    decide_eq_false_iff_not, not_le]
  omega

theorem isAlphaA_toUpperA_of_lower {c : Char} (h : isLowerA c = true) :
    isAlphaA (toUpperA c) = true := by
  simp [isAlphaA, isUpperA_toUpperA_of_lower h]

/-! ## Split and join lemmas -/

/-- Rejoin the underscore split: first component, then each later component
prefixed by an underscore. -/
def joinU : List (List Char) → List Char
  | [] => []
  | g :: gs => g ++ (gs.map (fun h => '_' :: h)).flatten

theorem splitUnderscore_ne_nil (l : List Char) : splitUnderscore l ≠ [] := by
  induction l with
  | nil => simp [splitUnderscore]
  | cons c rest ih =>
    simp only [splitUnderscore]
    split
    · simp
    · match hs : splitUnderscore rest with
      | [] => simp
      | g :: gs => simp

theorem joinU_cons_cons (g g2 : List Char) (gs : List (List Char)) :
    joinU (g :: g2 :: gs) = g ++ '_' :: joinU (g2 :: gs) := by
  simp [joinU]

theorem joinU_splitUnderscore (l : List Char) : joinU (splitUnderscore l) = l := by
  induction l with
  | nil => rfl
  | cons c rest ih =>
    simp only [splitUnderscore]
    by_cases hc : c = '_'
    · subst hc
      rw [if_pos rfl]
      match hs : splitUnderscore rest with
      | [] => exact absurd hs (splitUnderscore_ne_nil rest)
      | g :: gs =>
        rw [hs] at ih
        rw [show joinU ([] :: g :: gs) = '_' :: joinU (g :: gs) from by simp [joinU], ih]
    · rw [if_neg hc]
      match hs : splitUnderscore rest with
      | [] => exact absurd hs (splitUnderscore_ne_nil rest)
      | g :: gs =>
        rw [hs] at ih
        have hj : joinU ((c :: g) :: gs) = c :: joinU (g :: gs) := by
          cases gs <;> simp [joinU]
        rw [hj, ih]

/-! ## Title-case lemmas -/

theorem lettersThenDigits_all_snake {l : List Char} (h : lettersThenDigits l = true) :
    l.all isSnakeChar = true := by
  induction l with
  | nil => rfl
  | cons c rest ih =>
    simp only [lettersThenDigits] at h
    by_cases hc : isLowerA c = true
    · rw [if_pos hc] at h
      simp [List.all_cons, isSnakeChar_of_lower hc, ih h]
    · rw [if_neg hc] at h
      simp only [List.all_cons, Bool.and_eq_true] at h ⊢
      exact ⟨isSnakeChar_of_digit h.1, by
        apply List.all_eq_true.mpr
        intro x hx
        exact isSnakeChar_of_digit (List.all_eq_true.mp h.2 x hx)⟩

theorem titleAux_digits {l : List Char} (h : l.all isDigitA = true) (b : Bool) :
    titleAux b l = l := by
  induction l generalizing b with
  | nil => rfl
  | cons c rest ih =>
    simp only [List.all_cons, Bool.and_eq_true] at h
    simp only [titleAux, isAlphaA_false_of_digit h.1, ih h.2]
    simp

theorem titleAux_true_of_ltd {l : List Char} (h : lettersThenDigits l = true) :
    titleAux true l = l := by
  induction l with
  | nil => rfl
  | cons c rest ih =>
    simp only [lettersThenDigits] at h
    by_cases hc : isLowerA c = true
    · rw [if_pos hc] at h
      simp only [titleAux, isAlphaA_of_lower hc, if_true, ih h]
      rw [toLowerA_of_not_upper (isUpperA_false_of_snake (isSnakeChar_of_lower hc))]
    · rw [if_neg hc] at h
      simp only [List.all_cons, Bool.and_eq_true] at h
      simp only [titleAux, isAlphaA_false_of_digit h.1]
      simp [titleAux_digits h.2]

theorem titleCase_goodRest {c : Char} {rest : List Char}
    (h : goodCompRest (c :: rest) = true) :
    titleCase (c :: rest) = toUpperA c :: rest := by
  simp only [goodCompRest, Bool.and_eq_true] at h
  simp only [titleCase, titleAux, isAlphaA_of_lower h.1, if_true, if_false,
    Bool.false_eq_true, titleAux_true_of_ltd h.2]

/-! ## Camel-to-snake lemmas -/

theorem camelToSnakeAux_append (l m : List Char) :
    camelToSnakeAux (l ++ m) = camelToSnakeAux l ++ camelToSnakeAux m := by
  induction l with
  | nil => rfl
  | cons c rest ih => simp [camelToSnakeAux, ih]

theorem camelToSnakeAux_snake {l : List Char} (h : l.all isSnakeChar = true) :
    camelToSnakeAux l = l := by
  induction l with
  | nil => rfl
  | cons c rest ih =>
    simp only [List.all_cons, Bool.and_eq_true] at h
    simp only [camelToSnakeAux, isUpperA_false_of_snake h.1, if_false, Bool.false_eq_true,
      toLowerA_of_not_upper (isUpperA_false_of_snake h.1), ih h.2]
    simp

theorem camelToSnakeAux_title {g : List Char} (h : goodCompRest g = true) :
    camelToSnakeAux (titleCase g) = '_' :: g := by
  match g with
  | [] => simp [goodCompRest] at h
  | c :: rest =>
    have hb := h
    simp only [goodCompRest, Bool.and_eq_true] at hb
    rw [titleCase_goodRest h]
    simp only [camelToSnakeAux, isUpperA_toUpperA_of_lower hb.1, if_true,
      toLowerA_toUpperA_of_lower hb.1,
      camelToSnakeAux_snake (lettersThenDigits_all_snake hb.2)]
    rfl

theorem camelToSnakeAux_flatten {cs : List (List Char)}
    (h : cs.all goodCompRest = true) :
    camelToSnakeAux ((cs.map titleCase).flatten) = (cs.map (fun g => '_' :: g)).flatten := by
  induction cs with
  | nil => rfl
  | cons g gs ih =>
    simp only [List.all_cons, Bool.and_eq_true] at h
    simp only [List.map_cons, List.flatten_cons, camelToSnakeAux_append,
      camelToSnakeAux_title h.1, ih h.2]

/-! ## The case-conversion round trip -/

/-- On well-formed snake-case identifiers, the outbound wire translation
followed by the inbound translation is the identity. -/
theorem camel_snake_roundtrip {s : String} (h : goodSnake s = true) :
    camel_case_to_snake_case (snake_case_to_camel_case s) = s := by
  obtain ⟨l⟩ := s
  simp only [goodSnake] at h
  match hs : splitUnderscore l with
  | [] => rw [hs] at h; simp at h
  | c0 :: cs =>
    rw [hs] at h
    simp only [Bool.and_eq_true] at h
    obtain ⟨h0, hrest⟩ := h
    simp only [goodComp0, Bool.and_eq_true, Bool.not_eq_eq_eq_not, Bool.not_true] at h0
    match hc0 : c0 with
    | [] => simp [List.isEmpty] at h0
    | d :: c0t =>
      simp only [List.isEmpty, List.all_cons, Bool.and_eq_true] at h0
      have hd : isSnakeChar d = true := h0.2.1
      have hc0t : c0t.all isSnakeChar = true := h0.2.2
      show camel_case_to_snake_case (snake_case_to_camel_case (String.mk l)) = String.mk l
      have hdata : (String.mk l).data = l := rfl
      simp only [snake_case_to_camel_case, hdata, hs]
      simp only [camel_case_to_snake_case, List.cons_append]
      rw [camelToSnakeAux_append, camelToSnakeAux_snake hc0t,
        camelToSnakeAux_flatten hrest,
        toLowerA_of_not_upper (isUpperA_false_of_snake hd)]
      have hjoin : d :: (c0t ++ (cs.map (fun g => '_' :: g)).flatten) = l := by
        have := joinU_splitUnderscore l
        rw [hs] at this
        simpa [joinU] using this
      rw [hjoin]

example : goodSnake "organization_id" = true := by decide
example : goodSnake "created_at2" = true := by decide
example : goodSnake "a__b" = false := by decide
example : camel_case_to_snake_case "fooBar" = "foo_bar" := by decide
example : snake_case_to_camel_case "foo_bar" = "fooBar" := by decide
example : snake_case_to_camel_case "password" = "password" := by decide

/-! ## Values, model instances and association lists

A Django model instance is an attribute bag addressed with getattr and
setattr. The primary key and the class name are modelled as dedicated
structure fields (every Django model exposes them); the remaining
attributes live in an insertion-ordered association list with the
overwrite semantics of Python attribute assignment. Attribute values are
opaque scalars, references to related model instances, or None. -/

/-- A Python value held on a model instance or in a wire attribute. -/
inductive PyVal (V : Type) where
  | scalar (v : V)
  | obj (ty : String) (id : String)
  | pynone
deriving DecidableEq, Repr

/-- First-match lookup in an association list (Python dict access). -/
def assocGet {α : Type} : List (String × α) → String → Option α
  | [], _ => none
  | (k, v) :: rest, key => if k = key then some v else assocGet rest key

/-- Insertion with overwrite, keeping the position of an existing key
(Python dict assignment and attribute assignment). -/
def assocSet {α : Type} : List (String × α) → String → α → List (String × α)
  | [], key, v => [(key, v)]
  | (k, w) :: rest, key, v =>
    if k = key then (key, v) :: rest else (k, w) :: assocSet rest key v

/-- A Django model instance: class name, primary key, attribute bag. -/
structure Model (V : Type) where
  ty : String
  id : String
  fields : List (String × PyVal V) := []
deriving DecidableEq, Repr

/-- Python getattr on a model instance (None result for a missing
attribute is represented by the surrounding Option). -/
def mgetattr {V : Type} (m : Model V) (name : String) : Option (PyVal V) :=
  assocGet m.fields name

/-- Python setattr on a model instance. -/
def msetattr {V : Type} (m : Model V) (name : String) (v : PyVal V) : Model V :=
  { m with fields := assocSet m.fields name v }

/-- The acting identity: permission lookup plus readable named fields, as
consumed by the field-equality conditions. -/
structure Actor (V : Type) where
  has_permission : String → Bool
  attr : String → PyVal V

/-- Python exceptions raised by the embedded code paths, including the
taxonomy errors of exceptions.py and the builtin exceptions that escape
from buggy lines. -/
inductive PyErr where
  | requestMethodNotAllowedError
  | requestHeaderInvalidError (value : String)
  | requestBodyJsonDecodeError
  | requestBodyJsonSchemaError
  | requestBodyNotAllowedError
  | modelTypeInvalidError
  | modelIdDoesNotMatchError
  | modelNotFoundError
  | modelAttributeNotAllowedError (key : String)
  | modelRelationshipNotAllowedError (key : String)
  | validationError
  | keyError
  | nameError (name : String)
  | typeErrorNotCallable
  | doesNotExist
  | attributeError
  | valueError (msg : String)
  | stopIteration
  | indexError
deriving DecidableEq, Repr

/-! ## Query filters (django.db.models.Q)

The condition query mode returns Q filter objects; a queryset narrowed by
a filter keeps the rows the filter matches. Only the Q shapes built by
permissions.py and auth/permissions.py are represented. -/

/-- A Q filter expression. -/
inductive QF (V : Type) where
  | pkIn (ids : List String)
  | notQ (f : QF V)
  | andQ (a b : QF V)
  | orQ (a b : QF V)
  | fieldEq (field : String) (v : PyVal V)
  | fieldIsNull (field : String) (isnull : Bool)
deriving DecidableEq, Repr

/-- Whether a row matches a Q filter. -/
def qMatches {V : Type} [DecidableEq V] : QF V → Model V → Bool
  | .pkIn ids, m => ids.contains m.id
  | .notQ f, m => !(qMatches f m)
  | .andQ a b, m => qMatches a m && qMatches b m
  | .orQ a b, m => qMatches a m || qMatches b m
  | .fieldEq fl v, m => mgetattr m fl == some v
  | .fieldIsNull fl b, m => (mgetattr m fl == some PyVal.pynone) == b

/-- Narrow a queryset by a filter. -/
def applyFilter {V : Type} [DecidableEq V] (f : QF V) (q : List (Model V)) :
    List (Model V) :=
  q.filter (qMatches f)

/-! ## Conditions (permissions.py)

Combinators hold their child list; the constructor arity checks are
modelled separately as the mk functions below, mirroring the init
methods that raise ValueError. -/

/-- Condition classes of permissions.py. HasOrganization carries its field
name (the Python default is organization_id). -/
inductive Cond where
  | hasAll (conditions : List Cond)
  | hasAny (conditions : List Cond)
  | hasOrganization (field : String)
  | hasPermission (key : String)

/-- Calling a condition instance as a function, which is what the
combinator query mode does (condition(queryset, user) rather than
condition.check_queryset(queryset, user)). None of the condition classes
in permissions.py defines a call operator, so the call raises TypeError
for every condition and every argument pair. -/
def condCall {V : Type} (c : Cond) (q : List (Model V)) (u : Option (Actor V)) :
    Except PyErr (QF V) :=
  .error .typeErrorNotCallable

mutual

/-- check_model of the permissions.py condition classes. -/
def Cond.check_model {V : Type} [DecidableEq V] :
    Cond → Model V → Option (Actor V) → Except PyErr Bool
  | .hasAll cs, m, u => Cond.checkAllLoop cs m u
  | .hasAny cs, m, u => Cond.checkAnyLoop cs m u
  | .hasOrganization fl, m, u =>
    match u with
    | none => .ok false
    | some usr =>
      match mgetattr m fl with
      | none => .error .attributeError
      | some v => .ok (v == usr.attr "organization_id")
  | .hasPermission key, _, u =>
    match u with
    | none => .ok false
    | some usr => .ok (usr.has_permission key)

/-- The HasAll instance loop: return False at the first false child. -/
def Cond.checkAllLoop {V : Type} [DecidableEq V] :
    List Cond → Model V → Option (Actor V) → Except PyErr Bool
  | [], _, _ => .ok true
  | c :: rest, m, u =>
    match Cond.check_model c m u with
    | .error e => .error e
    | .ok b => if b then Cond.checkAllLoop rest m u else .ok false

/-- The HasAny instance loop: return True at the first true child. -/
def Cond.checkAnyLoop {V : Type} [DecidableEq V] :
    List Cond → Model V → Option (Actor V) → Except PyErr Bool
  | [], _, _ => .ok false
  | c :: rest, m, u =>
    match Cond.check_model c m u with
    | .error e => .error e
    | .ok b => if b then .ok true else Cond.checkAnyLoop rest m u

end

/-- check_queryset of the permissions.py condition classes. The combinator
branches index the first child (IndexError on an empty tuple) and then
call each child as a function, which raises TypeError. -/
def Cond.check_queryset {V : Type} (c : Cond) (q : List (Model V))
    (u : Option (Actor V)) : Except PyErr (QF V) :=
  match c with
  | .hasAll cs =>
    match cs with
    | [] => .error .indexError
    | c0 :: rest => do
      let f0 ← condCall c0 q u
      rest.foldlM (fun acc c => do
        let fc ← condCall c q u
        pure (QF.andQ acc fc)) f0
  | .hasAny cs =>
    match cs with
    | [] => .error .indexError
    | c0 :: rest => do
      let f0 ← condCall c0 q u
      rest.foldlM (fun acc c => do
        let fc ← condCall c q u
        pure (QF.orQ acc fc)) f0
  | .hasOrganization fl =>
    match u with
    | none => .ok (.pkIn [])
    | some usr => .ok (.fieldEq fl (usr.attr "organization_id"))
  | .hasPermission key =>
    match u with
    | none => .error .attributeError
    | some usr =>
      .ok (if usr.has_permission key then .notQ (.pkIn []) else .pkIn [])

/-- HasAll constructor: raises ValueError below 2 conditions. -/
def mkHasAll (conditions : List Cond) : Except PyErr Cond :=
  if conditions.length < 2 then
    .error (.valueError "HasAll requires at least 2 conditions")
  else .ok (.hasAll conditions)

/-- HasAny constructor: raises ValueError below 2 conditions. -/
def mkHasAny (conditions : List Cond) : Except PyErr Cond :=
  if conditions.length < 2 then
    .error (.valueError "HasAny requires at least 2 conditions")
  else .ok (.hasAny conditions)

/-! ## Conditions (auth/permissions.py) -/

/-- Condition classes of auth/permissions.py. -/
inductive ACond (V : Type) where
  | allOf (conditions : List (ACond V))
  | anyOf (conditions : List (ACond V))
  | modelFieldIsEqualToOwnField (field own_field : String)
  | modelFieldIsEqualToValue (field : String) (value : PyVal V)
  | modelFieldIsNone (field : String)
  | modelFieldIsNotNone (field : String)
  | userHasGlobalPermission (key : String)
  | userHasPermissionInOrganizationOfModel (key : String)

/-- Calling an auth condition instance as a function: as in permissions.py,
no class defines a call operator, so TypeError is raised. -/
def acondCall {V : Type} (c : ACond V) (q : List (Model V)) (u : Option (Actor V)) :
    Except PyErr (QF V) :=
  .error .typeErrorNotCallable

mutual

/-- check_model of the auth/permissions.py condition classes. -/
def ACond.check_model {V : Type} [DecidableEq V] :
    ACond V → Model V → Option (Actor V) → Except PyErr Bool
  | .allOf cs, m, u => ACond.checkAllLoop cs m u
  | .anyOf cs, m, u => ACond.checkAnyLoop cs m u
  | .modelFieldIsEqualToOwnField fl own, m, u =>
    match u with
    | none => .ok false
    | some usr =>
      match mgetattr m fl with
      | none => .error .attributeError
      | some v => .ok (v == usr.attr own)
  | .modelFieldIsEqualToValue fl value, m, _ =>
    match mgetattr m fl with
    | none => .error .attributeError
    | some v => .ok (v == value)
  | .modelFieldIsNone fl, m, _ =>
    match mgetattr m fl with
    | none => .error .attributeError
    | some v => .ok (v == PyVal.pynone)
  | .modelFieldIsNotNone fl, m, _ =>
    match mgetattr m fl with
    | none => .error .attributeError
    | some v => .ok (!(v == PyVal.pynone))
  | .userHasGlobalPermission key, _, u =>
    match u with
    | none => .ok false
    | some usr => .ok (usr.has_permission key)
  | .userHasPermissionInOrganizationOfModel key, _, u =>
    match u with
    | none => .ok false
    | some usr => .ok (usr.has_permission key)

/-- The AllOf instance loop. -/
def ACond.checkAllLoop {V : Type} [DecidableEq V] :
    List (ACond V) → Model V → Option (Actor V) → Except PyErr Bool
  | [], _, _ => .ok true
  | c :: rest, m, u =>
    match ACond.check_model c m u with
    | .error e => .error e
    | .ok b => if b then ACond.checkAllLoop rest m u else .ok false

/-- The AnyOf instance loop. -/
def ACond.checkAnyLoop {V : Type} [DecidableEq V] :
    List (ACond V) → Model V → Option (Actor V) → Except PyErr Bool
  | [], _, _ => .ok false
  | c :: rest, m, u =>
    match ACond.check_model c m u with
    | .error e => .error e
    | .ok b => if b then .ok true else ACond.checkAnyLoop rest m u

end

/-- check_queryset of the auth/permissions.py condition classes. -/
def ACond.check_queryset {V : Type} (c : ACond V) (q : List (Model V))
    (u : Option (Actor V)) : Except PyErr (QF V) :=
  match c with
  | .allOf cs =>
    match cs with
    | [] => .error .indexError
    | c0 :: rest => do
      let f0 ← acondCall c0 q u
      rest.foldlM (fun acc c => do
        let fc ← acondCall c q u
        pure (QF.andQ acc fc)) f0
  | .anyOf cs =>
    match cs with
    | [] => .error .indexError
    | c0 :: rest => do
      let f0 ← acondCall c0 q u
      rest.foldlM (fun acc c => do
        let fc ← acondCall c q u
        pure (QF.orQ acc fc)) f0
  | .modelFieldIsEqualToOwnField fl own =>
    match u with
    | none => .ok (.pkIn [])
    | some usr => .ok (.fieldEq fl (usr.attr own))
  | .modelFieldIsEqualToValue fl value => .ok (.fieldEq fl value)
  | .modelFieldIsNone fl => .ok (.fieldIsNull fl true)
  | .modelFieldIsNotNone fl => .ok (.fieldIsNull fl false)
  | .userHasGlobalPermission key =>
    match u with
    | none => .error .attributeError
    | some usr =>
      .ok (if usr.has_permission key then .notQ (.pkIn []) else .pkIn [])
  | .userHasPermissionInOrganizationOfModel key =>
    match u with
    | none => .error .attributeError
    | some usr =>
      .ok (if usr.has_permission key then .notQ (.pkIn []) else .pkIn [])

/-- AllOf constructor: raises ValueError below 2 conditions. -/
def mkAllOf {V : Type} (conditions : List (ACond V)) : Except PyErr (ACond V) :=
  if conditions.length < 2 then
    .error (.valueError "AllOf requires at least 2 conditions")
  else .ok (.allOf conditions)

/-- AnyOf constructor: raises ValueError below 2 conditions. -/
def mkAnyOf {V : Type} (conditions : List (ACond V)) : Except PyErr (ACond V) :=
  if conditions.length < 2 then
    .error (.valueError "AnyOf requires at least 2 conditions")
  else .ok (.anyOf conditions)

/-! ## Profiles and the resolver

One structure covers permissions.Profile, auth.permissions.Profile and
views.JSONAPIResourceProfile: the three classes carry the same data up to
defaults (the views class has no condition; the core class has no
attribute_mappings or show_response). The relationships mapping sends a
relationship name to the related resource class, represented here by the
related model class name used for storage lookups; the deferred
fully-qualified-name form collapses to the same reference. -/

/-- A per-action profile. -/
structure Profile (V : Type) where
  condition : Option (ACond V) := none
  attributes : List String := []
  attribute_mappings : List (String × String) := []
  relationships : List (String × String) := []
  show_response : Bool := true

/-- Profile.resolve returns the profile itself. -/
def Profile.resolve {V : Type} (p : Profile V) (u : Option (Actor V)) : Profile V := p

/-- An ordered multi-branch resolver. -/
structure ProfileResolver (V : Type) where
  profiles : List (Profile V)

/-- ProfileResolver constructor: raises ValueError below 2 profiles. -/
def mkProfileResolver {V : Type} (profiles : List (Profile V)) :
    Except PyErr (ProfileResolver V) :=
  if profiles.length < 2 then
    .error (.valueError "ProfileResolver requires at least 2 profiles")
  else .ok ⟨profiles⟩

/-- ProfileResolver.resolve returns the first profile regardless of the
actor. -/
def ProfileResolver.resolve {V : Type} (r : ProfileResolver V)
    (u : Option (Actor V)) : Option (Profile V) :=
  r.profiles.head?

/-! ## The validation-error classifier (exceptions.py, ErrorMiddleware)

process_exception receives a Django ValidationError whose error_dict maps
field names to lists of field-level errors; only the first field and its
first error are classified. The embedded input carries the error code and
the two params entries the classifier reads. -/

/-- One field-level validation error: its code and the params entries the
classifier reads (absent entries raise KeyError on subscript). -/
structure FieldError where
  code : String
  limit_value : Option Nat := none
  unique_check : Option (List String) := none
deriving DecidableEq, Repr

/-- A classified taxonomy error with its metadata. -/
inductive TaxErr where
  | modelAttributeRequiredError (field : String)
  | modelAttributeTooShortError (field : String) (min_length : Nat)
  | modelAttributeTooLongError (field : String) (max_length : Nat)
  | modelAttributeInvalidError (field : String)
  | modelFieldsUniqueTogetherError (fields : List String)
deriving DecidableEq, Repr

/-- The classification step of ErrorMiddleware.process_exception. An ok none
result means the code was not recognized and the original exception passes
through unclassified. The blank branch iterates the validators of
model._meta.get_field(field_name), but the name model is bound nowhere in
process_exception and exceptions.py has no such global (MinLengthValidator
is also not imported there), so evaluating the loop iterable raises
NameError before any comparison. -/
def classify_validation_error (error_dict : List (String × List FieldError)) :
    Except PyErr (Option TaxErr) :=
  match error_dict with
  | [] => .error .stopIteration
  | (field_name, fes) :: _ =>
    match fes with
    | [] => .error .indexError
    | fe :: _ =>
      if fe.code = "null" then
        .ok (some (.modelAttributeRequiredError field_name))
      else if fe.code = "blank" then
        .error (.nameError "model")
      else if fe.code = "min_length" then
        match fe.limit_value with
        | none => .error .keyError
        | some n => .ok (some (.modelAttributeTooShortError field_name n))
      else if fe.code = "max_length" then
        match fe.limit_value with
        | none => .error .keyError
        | some n => .ok (some (.modelAttributeTooLongError field_name n))
      else if fe.code = "invalid" then
        .ok (some (.modelAttributeInvalidError field_name))
      else if fe.code = "unique" then
        .ok (some (.modelAttributeInvalidError field_name))
      else if fe.code = "unique_together" then
        match fe.unique_check with
        | none => .error .keyError
        | some fields => .ok (some (.modelFieldsUniqueTogetherError fields))
      else
        .ok none

/-! ## Wire resources -/

/-- The data member of a wire relationship value. -/
structure RelData where
  type : String
  id : String
deriving DecidableEq, Repr

/-- A JSON:API wire resource object. The attributes and relationships
members are present exactly when their key is present in the JSON object. -/
structure Resource (V : Type) where
  id : Option String := none
  type : String
  attributes : Option (List (String × PyVal V)) := none
  relationships : Option (List (String × Option RelData)) := none
deriving DecidableEq, Repr

/-! ## Storage collaborator

The database is a list of model rows; a row is addressed by its model
class name and primary key. -/

/-- Model.objects.get within one model class. -/
def dbGet {V : Type} (db : List (Model V)) (ty i : String) : Option (Model V) :=
  db.find? (fun m => m.ty == ty && m.id == i)

/-- model.save: update the row with the same class and key, or insert. -/
def dbSave {V : Type} (db : List (Model V)) (m : Model V) : List (Model V) :=
  if db.any (fun r => r.ty == m.ty && r.id == m.id) then
    db.map (fun r => if r.ty == m.ty && r.id == m.id then m else r)
  else db ++ [m]

/-- model.delete: drop the row. -/
def dbDelete {V : Type} (db : List (Model V)) (ty i : String) : List (Model V) :=
  db.filter (fun m => !(m.ty == ty && m.id == i))

/-! ## The resource transformer (views.py) -/

/-- The inbound attribute key translation of
__populate_model_from_resource: the wire key to snake case, then the
profile attribute mapping when the translated name has an entry. -/
def transName {V : Type} (profile : Profile V) (k : String) : String :=
  let name := camel_case_to_snake_case k
  match assocGet profile.attribute_mappings name with
  | some mapped => mapped
  | none => name

/-- JSONAPIResource.__populate_model_from_resource: set every wire
attribute on the model after translating its key and applying the profile
attribute mapping, then resolve and set every wire relationship; a
relationship name missing from the profile mapping raises KeyError and a
missing related row raises the DoesNotExist of objects.get. -/
def populate_model_from_resource {V : Type} (db : List (Model V)) (model : Model V)
    (resource : Resource V) (profile : Profile V) : Except PyErr (Model V) :=
  let model1 := match resource.attributes with
    | none => model
    | some attrs => attrs.foldl (fun m kv => msetattr m (transName profile kv.1) kv.2) model
  match resource.relationships with
  | none => .ok model1
  | some rels => rels.foldlM (fun m kv =>
      let name := camel_case_to_snake_case kv.1
      match kv.2 with
      | none => .ok (msetattr m name PyVal.pynone)
      | some rd =>
        match assocGet profile.relationships name with
        | none => .error .keyError
        | some relModel =>
          match dbGet db relModel rd.id with
          | none => .error .doesNotExist
          | some inst => .ok (msetattr m name (PyVal.obj inst.ty inst.id))) model1

/-- JSONAPIResource.__render_model_to_resource: build the wire attribute
dictionary from the profile attribute list and the wire relationship
dictionary from the profile relationship keys, omitting each dictionary
when empty; reading a missing attribute raises AttributeError, as does
reading the id of a scalar sitting in a relationship position. -/
def render_model_to_resource {V : Type} (model : Model V) (profile : Profile V) :
    Except PyErr (Resource V) := do
  let attrs ← profile.attributes.foldlM (fun d a =>
      match mgetattr model a with
      | none => throw PyErr.attributeError
      | some v => pure (assocSet d (snake_case_to_camel_case a) v))
    ([] : List (String × PyVal V))
  let rels ← profile.relationships.foldlM (fun d kv =>
      match mgetattr model kv.1 with
      | none => throw PyErr.attributeError
      | some v =>
        match v with
        | .pynone =>
          pure (assocSet d (snake_case_to_camel_case kv.1) (none : Option RelData))
        | .obj ty i =>
          pure (assocSet d (snake_case_to_camel_case kv.1) (some (RelData.mk ty i)))
        | .scalar _ => throw PyErr.attributeError)
    ([] : List (String × Option RelData))
  pure {
    id := some model.id
    type := model.ty
    attributes := if attrs.length > 0 then some attrs else none
    relationships := if rels.length > 0 then some rels else none
  }

/-! ## The model-side transformer (models.py, JSONAPIModel)

from_jsonapi_resource differs from the view-side populate: the allow-list
check happens inside the loop, after earlier entries were already set on
the record, and the attributes and relationships members are subscripted
unconditionally. The pair result carries the record state reached when the
method returns or raises. -/

/-- The attribute loop of JSONAPIModel.from_jsonapi_resource. -/
def fjrAttrs {V : Type} (profile : Profile V) :
    Model V → List (String × PyVal V) → (Except PyErr Unit) × Model V
  | m, [] => (.ok (), m)
  | m, (k, v) :: rest =>
    let name := camel_case_to_snake_case k
    if name ∈ profile.attributes then fjrAttrs profile (msetattr m name v) rest
    else (.error (.modelAttributeNotAllowedError name), m)

/-- The relationship loop of JSONAPIModel.from_jsonapi_resource; the
related model class comes from the model field metadata. -/
def fjrRels {V : Type} (db : List (Model V)) (related_model : String → Option String)
    (profile : Profile V) :
    Model V → List (String × Option RelData) → (Except PyErr Unit) × Model V
  | m, [] => (.ok (), m)
  | m, (k, rv) :: rest =>
    let name := camel_case_to_snake_case k
    if (assocGet profile.relationships name).isSome then
      match rv with
      | none => fjrRels db related_model profile (msetattr m name PyVal.pynone) rest
      | some rd =>
        match related_model name with
        | none => (.error .attributeError, m)
        | some relModel =>
          match dbGet db relModel rd.id with
          | none => (.error .doesNotExist, m)
          | some inst =>
            fjrRels db related_model profile (msetattr m name (PyVal.obj inst.ty inst.id)) rest
    else (.error (.modelRelationshipNotAllowedError name), m)

/-- JSONAPIModel.from_jsonapi_resource. -/
def from_jsonapi_resource {V : Type} (db : List (Model V))
    (related_model : String → Option String) (self : Model V)
    (resource : Resource V) (profile : Profile V) : (Except PyErr Unit) × Model V :=
  match resource.attributes with
  | none => (.error .keyError, self)
  | some attrs =>
    match fjrAttrs profile self attrs with
    | (.error e, m) => (.error e, m)
    | (.ok (), m1) =>
      match resource.relationships with
      | none => (.error .keyError, m1)
      | some rels => fjrRels db related_model profile m1 rels

/-! ## Requests and responses (views.py, JSONAPIResource)

A request carries its Content-Type header (absent keys raise KeyError on
subscript) and its raw body: empty, non-JSON, or parsed JSON, the latter
either failing or passing the JSON:API schema shape. -/

/-- The outcome of json.loads on a nonempty body. -/
inductive Parsed (V : Type) where
  | nonconforming
  | conforming (data : Resource V)
deriving DecidableEq, Repr

/-- The raw request body. -/
inductive RawBody (V : Type) where
  | empty
  | invalidJson
  | json (parsed : Parsed V)
deriving DecidableEq, Repr

/-- An incoming HTTP request, reduced to what the handlers read. -/
structure Request (V : Type) where
  contentType : Option String := none
  body : RawBody V
deriving DecidableEq, Repr

/-- The response data member. -/
inductive ResponseData (V : Type) where
  | single (r : Resource V)
  | many (rs : List (Resource V))
deriving DecidableEq, Repr

/-- A handler response: a JSON data envelope or 204 no content. -/
inductive Response (V : Type) where
  | json (data : ResponseData V)
  | noContent
deriving DecidableEq, Repr

/-- The declarative per-resource configuration of a JSONAPIResource
subclass: the bound model class name and the four action profiles. -/
structure ResourceCls (V : Type) where
  modelName : String
  create_profile : Option (Profile V) := none
  read_profile : Option (Profile V) := none
  update_profile : Option (Profile V) := none
  delete_profile : Option (Profile V) := none

/-- Modelled from the spec: schema.json is loaded by views.py at import
time but the file is not among the sources. Per the specification, the
update variant of the JSON:API schema requires the resource id member and
the create variant excludes it from the required properties; both require
the data resource envelope, which the Parsed.conforming shape represents. -/
def jsonapi_schema_validate {V : Type} (forUpdate : Bool) (p : Parsed V) : Bool :=
  match p with
  | .nonconforming => false
  | .conforming r => if forUpdate then r.id.isSome else true

/-- JSONAPIResource.__validate_request_headers: with a nonempty body, a
Content-Type other than the JSON:API media type is rejected; reading a
missing header raises KeyError. An empty body short-circuits the check. -/
def validate_request_headers {V : Type} (req : Request V) : Except PyErr Unit :=
  match req.body with
  | .empty => .ok ()
  | _ =>
    match req.contentType with
    | none => .error .keyError
    | some ct =>
      if ct = "application/vnd.api+json" then .ok ()
      else .error (.requestHeaderInvalidError ct)

/-- JSONAPIResource.__parse_request_body: json.loads of the body; an empty
or malformed body raises the decode error. -/
def parse_request_body {V : Type} (req : Request V) : Except PyErr (Parsed V) :=
  match req.body with
  | .empty => .error .requestBodyJsonDecodeError
  | .invalidJson => .error .requestBodyJsonDecodeError
  | .json p => .ok p

/-- JSONAPIResource.__validate_request_body_is_empty. -/
def validate_request_body_is_empty {V : Type} (req : Request V) : Except PyErr Unit :=
  match req.body with
  | .empty => .ok ()
  | _ => .error .requestBodyNotAllowedError

/-- The attribute allow-list loop body of __validate_request_body: the
first wire attribute whose translated name is outside the profile raises
ModelAttributeNotAllowedError carrying that name. -/
def attrsAllowedLoop {V : Type} (profile : Profile V) :
    List (String × PyVal V) → Except PyErr Unit
  | [] => .ok ()
  | kv :: rest =>
    let name := camel_case_to_snake_case kv.1
    if name ∈ profile.attributes then attrsAllowedLoop profile rest
    else .error (.modelAttributeNotAllowedError name)

/-- The attribute allow-list check of __validate_request_body. -/
def validate_attrs_allowed {V : Type} (profile : Profile V) (r : Resource V) :
    Except PyErr Unit :=
  match r.attributes with
  | none => .ok ()
  | some attrs => attrsAllowedLoop profile attrs

/-- The relationship allow-list loop body of __validate_request_body. -/
def relsAllowedLoop {V : Type} (profile : Profile V) :
    List (String × Option RelData) → Except PyErr Unit
  | [] => .ok ()
  | kv :: rest =>
    let name := camel_case_to_snake_case kv.1
    if (assocGet profile.relationships name).isSome then relsAllowedLoop profile rest
    else .error (.modelRelationshipNotAllowedError name)

/-- The relationship allow-list check of __validate_request_body. -/
def validate_rels_allowed {V : Type} (profile : Profile V) (r : Resource V) :
    Except PyErr Unit :=
  match r.relationships with
  | none => .ok ()
  | some rels => relsAllowedLoop profile rels

/-- JSONAPIResource.__validate_request_body: schema check (create or update
variant chosen by whether a path id was supplied), resource type check,
id match check for updates, then the attribute and relationship allow-list
checks in wire order. The id membership test in the source is a bare
expression statement without a raise, so a missing id falls through to the
subscript and raises KeyError; the update schema has already required it.
Returns the data member that the handler then reads. -/
def validate_request_body {V : Type} (modelName : String) (profile : Profile V)
    (p : Parsed V) (id? : Option String) : Except PyErr (Resource V) :=
  if jsonapi_schema_validate id?.isSome p = false then
    .error .requestBodyJsonSchemaError
  else
    match p with
    | .nonconforming => .error .requestBodyJsonSchemaError
    | .conforming r =>
      if r.type ≠ modelName then .error .modelTypeInvalidError
      else
        match id? with
        | some i =>
          match r.id with
          | none => .error .keyError
          | some rid =>
            if rid ≠ i then .error .modelIdDoesNotMatchError
            else
              match validate_attrs_allowed profile r with
              | .error e => .error e
              | .ok () =>
                match validate_rels_allowed profile r with
                | .error e => .error e
                | .ok () => .ok r
        | none =>
          match validate_attrs_allowed profile r with
          | .error e => .error e
          | .ok () =>
            match validate_rels_allowed profile r with
            | .error e => .error e
            | .ok () => .ok r

/-! ## The endpoint controller (views.py handlers)

Each handler returns its HTTP outcome together with the database state it
leaves behind. The Django validation step model.full_clean is an external
collaborator and enters as the clean argument; the fresh primary key that
the model class default generates enters as newId. -/

/-- JSONAPIResource.__handle_create_request. -/
def handle_create_request {V : Type} (cls : ResourceCls V)
    (clean : Model V → Except PyErr Unit) (newId : String)
    (req : Request V) (db : List (Model V)) :
    (Except PyErr (Response V)) × List (Model V) :=
  match cls.create_profile with
  | none => (.error .requestMethodNotAllowedError, db)
  | some prof =>
    match validate_request_headers req with
    | .error e => (.error e, db)
    | .ok () =>
      match parse_request_body req with
      | .error e => (.error e, db)
      | .ok p =>
        match validate_request_body cls.modelName prof p none with
        | .error e => (.error e, db)
        | .ok resource =>
          let model0 : Model V := { ty := cls.modelName, id := newId, fields := [] }
          match populate_model_from_resource db model0 resource prof with
          | .error e => (.error e, db)
          | .ok model1 =>
            match clean model1 with
            | .error e => (.error e, db)
            | .ok () =>
              let db1 := dbSave db model1
              if prof.show_response then
                match cls.read_profile with
                | none => (.error .attributeError, db1)
                | some rp =>
                  match render_model_to_resource model1 rp with
                  | .error e => (.error e, db1)
                  | .ok res => (.ok (.json (.single res)), db1)
              else (.ok .noContent, db1)

/-- JSONAPIResource.__handle_get_request. -/
def handle_get_request {V : Type} (cls : ResourceCls V) (req : Request V)
    (i : String) (db : List (Model V)) :
    (Except PyErr (Response V)) × List (Model V) :=
  match cls.read_profile with
  | none => (.error .requestMethodNotAllowedError, db)
  | some rp =>
    match validate_request_headers req with
    | .error e => (.error e, db)
    | .ok () =>
      match validate_request_body_is_empty req with
      | .error e => (.error e, db)
      | .ok () =>
        match dbGet db cls.modelName i with
        | none => (.error .modelNotFoundError, db)
        | some m =>
          match render_model_to_resource m rp with
          | .error e => (.error e, db)
          | .ok r => (.ok (.json (.single r)), db)

/-- JSONAPIResource.__handle_list_request. The mapping lambda reads the
plain name read_profile, which is neither a local nor a module-level
global in views.py (the class attribute would be cls.read_profile), so
its first evaluation raises NameError; with no rows the lambda never runs
and the empty data list is returned. -/
def handle_list_request {V : Type} (cls : ResourceCls V) (req : Request V)
    (db : List (Model V)) :
    (Except PyErr (Response V)) × List (Model V) :=
  match cls.read_profile with
  | none => (.error .requestMethodNotAllowedError, db)
  | some _ =>
    match validate_request_headers req with
    | .error e => (.error e, db)
    | .ok () =>
      match validate_request_body_is_empty req with
      | .error e => (.error e, db)
      | .ok () =>
        match db.filter (fun m => m.ty == cls.modelName) with
        | [] => (.ok (.json (.many [])), db)
        | _ :: _ => (.error (.nameError "read_profile"), db)

/-- JSONAPIResource.__handle_update_request. The body validation, with its
id match check, runs before the record lookup. -/
def handle_update_request {V : Type} (cls : ResourceCls V)
    (clean : Model V → Except PyErr Unit) (req : Request V) (i : String)
    (db : List (Model V)) :
    (Except PyErr (Response V)) × List (Model V) :=
  match cls.update_profile with
  | none => (.error .requestMethodNotAllowedError, db)
  | some prof =>
    match validate_request_headers req with
    | .error e => (.error e, db)
    | .ok () =>
      match parse_request_body req with
      | .error e => (.error e, db)
      | .ok p =>
        match validate_request_body cls.modelName prof p (some i) with
        | .error e => (.error e, db)
        | .ok resource =>
          match dbGet db cls.modelName i with
          | none => (.error .modelNotFoundError, db)
          | some model0 =>
            match populate_model_from_resource db model0 resource prof with
            | .error e => (.error e, db)
            | .ok model1 =>
              match clean model1 with
              | .error e => (.error e, db)
              | .ok () =>
                let db1 := dbSave db model1
                if prof.show_response then
                  match cls.read_profile with
                  | none => (.error .attributeError, db1)
                  | some rp =>
                    match render_model_to_resource model1 rp with
                    | .error e => (.error e, db1)
                    | .ok res => (.ok (.json (.single res)), db1)
                else (.ok .noContent, db1)

/-- JSONAPIResource.__handle_delete_request. -/
def handle_delete_request {V : Type} (cls : ResourceCls V) (req : Request V)
    (i : String) (db : List (Model V)) :
    (Except PyErr (Response V)) × List (Model V) :=
  match cls.delete_profile with
  | none => (.error .requestMethodNotAllowedError, db)
  | some _ =>
    match validate_request_headers req with
    | .error e => (.error e, db)
    | .ok () =>
      match validate_request_body_is_empty req with
      | .error e => (.error e, db)
      | .ok () =>
        match dbGet db cls.modelName i with
        | none => (.error .modelNotFoundError, db)
        | some _ => (.ok .noContent, dbDelete db cls.modelName i)

/-! ## Concrete fixtures used by the closed theorems and witnesses -/

/-- A profile allowing the name attribute only. -/
def sProfile : Profile String := { attributes := ["name"] }

/-- A resource class with all four actions configured. -/
def orgCls : ResourceCls String :=
  { modelName := "Organization", create_profile := some sProfile,
    read_profile := some sProfile, update_profile := some sProfile,
    delete_profile := some sProfile }

/-- A resource class with no action configured. -/
def bareCls : ResourceCls String := { modelName := "Organization" }

/-- One stored organization row. -/
def orgRow : Model String :=
  { ty := "Organization", id := "1", fields := [("name", PyVal.scalar "Acme")] }

/-- A request with an empty body. -/
def emptyReq : Request String := { contentType := none, body := RawBody.empty }

/-- A request with an empty body and the JSON:API content type. -/
def emptyJsonReq : Request String :=
  { contentType := some "application/vnd.api+json", body := RawBody.empty }

/-- A nonempty non-JSON request body with a non-JSON:API content type. -/
def badCtReq : Request String :=
  { contentType := some "text/plain", body := RawBody.invalidJson }

/-- An actor with one permission and a fixed organization. -/
def actor1 : Actor String :=
  { has_permission := fun k => k == "p.read",
    attr := fun _ => PyVal.scalar "org1" }

/-- A row inside the organization of actor1. -/
def row1 : Model String :=
  { ty := "Organization", id := "1",
    fields := [("organization_id", PyVal.scalar "org1")] }

/-! ## Claim theorems -/

/-- C9: constructing HasAll, HasAny, AllOf, AnyOf or ProfileResolver from
fewer than 2 elements always fails at construction with ValueError, before
any evaluation is possible; construction from 2 or more elements
succeeds. -/
theorem c9_arity_floor (V : Type) (cs : List Cond) (acs : List (ACond V))
    (ps : List (Profile V)) :
    (cs.length < 2 →
      mkHasAll cs = .error (.valueError "HasAll requires at least 2 conditions")
      ∧ mkHasAny cs = .error (.valueError "HasAny requires at least 2 conditions"))
    ∧ (2 ≤ cs.length →
      mkHasAll cs = .ok (.hasAll cs) ∧ mkHasAny cs = .ok (.hasAny cs))
    ∧ (acs.length < 2 →
      mkAllOf acs = .error (.valueError "AllOf requires at least 2 conditions")
      ∧ mkAnyOf acs = .error (.valueError "AnyOf requires at least 2 conditions"))
    ∧ (2 ≤ acs.length →
      mkAllOf acs = .ok (.allOf acs) ∧ mkAnyOf acs = .ok (.anyOf acs))
    ∧ (ps.length < 2 →
      mkProfileResolver ps =
        .error (.valueError "ProfileResolver requires at least 2 profiles"))
    ∧ (2 ≤ ps.length → mkProfileResolver ps = .ok ⟨ps⟩) := by
  refine ⟨fun h => ?_, fun h => ?_, fun h => ?_, fun h => ?_, fun h => ?_, fun h => ?_⟩
  · constructor <;> simp [mkHasAll, mkHasAny, if_pos h]
  · constructor <;> simp [mkHasAll, mkHasAny, if_neg (Nat.not_lt.mpr h), Nat.not_lt.mpr h]
  · constructor <;> simp [mkAllOf, mkAnyOf, if_pos h]
  · constructor <;> simp [mkAllOf, mkAnyOf, if_neg (Nat.not_lt.mpr h), Nat.not_lt.mpr h]
  · simp [mkProfileResolver, if_pos h]
  · simp [mkProfileResolver, if_neg (Nat.not_lt.mpr h), Nat.not_lt.mpr h]

/-- Witness for C9 at concrete inputs: empty and two-element sequences. -/
theorem c9_arity_witness :
    (mkHasAll [] = .error (.valueError "HasAll requires at least 2 conditions")
      ∧ mkHasAny [] = .error (.valueError "HasAny requires at least 2 conditions"))
    ∧ (mkHasAll [Cond.hasPermission "a", Cond.hasPermission "b"]
        = .ok (.hasAll [Cond.hasPermission "a", Cond.hasPermission "b"])
      ∧ mkHasAny [Cond.hasPermission "a", Cond.hasPermission "b"]
        = .ok (.hasAny [Cond.hasPermission "a", Cond.hasPermission "b"]))
    ∧ mkProfileResolver ([] : List (Profile String))
        = .error (.valueError "ProfileResolver requires at least 2 profiles") := by
  refine ⟨?_, ?_, ?_⟩
  · exact (c9_arity_floor String [] [] []).1 (by decide)
  · exact (c9_arity_floor String [Cond.hasPermission "a", Cond.hasPermission "b"]
      [] []).2.1 (by decide)
  · exact (c9_arity_floor String [] [] []).2.2.2.2.1 (by decide)

/-- C7: a FieldEqualsActorField condition (ModelFieldIsEqualToOwnField in
auth/permissions.py, HasOrganization in permissions.py) evaluated with a
null actor returns false in instance mode for every record and every field
pair, and in query mode returns the empty primary-key filter, which
narrows every collection to the empty one. -/
theorem c7_null_actor_field_equals (V : Type) [DecidableEq V] (fl own : String)
    (m : Model V) (q : List (Model V)) :
    ACond.check_model (ACond.modelFieldIsEqualToOwnField fl own : ACond V) m none
        = .ok false
    ∧ ACond.check_queryset (ACond.modelFieldIsEqualToOwnField fl own : ACond V) q none
        = .ok (.pkIn [])
    ∧ Cond.check_model (.hasOrganization fl) m (none : Option (Actor V)) = .ok false
    ∧ Cond.check_queryset (.hasOrganization fl) q (none : Option (Actor V))
        = .ok (.pkIn [])
    ∧ applyFilter (QF.pkIn [] : QF V) q = [] := by
  refine ⟨?_, ?_, ?_, ?_, ?_⟩
  · simp [ACond.check_model]
  · simp [ACond.check_queryset]
  · simp [Cond.check_model]
  · simp [Cond.check_queryset]
  · apply List.filter_eq_nil_iff.mpr
    intro x hx
    simp [qMatches]

/-- C8: every handler whose action profile is unset rejects the request
with RequestMethodNotAllowed, for every request body, header, record
store, validator and path id, and leaves the store untouched. -/
theorem c8_null_profile_rejects (V : Type) (cls : ResourceCls V)
    (clean : Model V → Except PyErr Unit) (newId i : String)
    (req : Request V) (db : List (Model V)) :
    (cls.create_profile = none →
      handle_create_request cls clean newId req db
        = (.error .requestMethodNotAllowedError, db))
    ∧ (cls.read_profile = none →
      handle_get_request cls req i db = (.error .requestMethodNotAllowedError, db)
      ∧ handle_list_request cls req db = (.error .requestMethodNotAllowedError, db))
    ∧ (cls.update_profile = none →
      handle_update_request cls clean req i db
        = (.error .requestMethodNotAllowedError, db))
    ∧ (cls.delete_profile = none →
      handle_delete_request cls req i db
        = (.error .requestMethodNotAllowedError, db)) := by
  refine ⟨fun h => ?_, fun h => ⟨?_, ?_⟩, fun h => ?_, fun h => ?_⟩
  · simp [handle_create_request, h]
  · simp [handle_get_request, ‹cls.read_profile = none›]
  · simp [handle_list_request, ‹cls.read_profile = none›]
  · simp [handle_update_request, h]
  · simp [handle_delete_request, h]

/-- Witness for C8: the unconfigured resource class rejects each action on
a concrete request with a nonempty body of the wrong content type. -/
theorem c8_null_profile_witness :
    handle_create_request bareCls (fun _ => .ok ()) "7" badCtReq [orgRow]
      = (.error .requestMethodNotAllowedError, [orgRow])
    ∧ handle_get_request bareCls badCtReq "1" [orgRow]
      = (.error .requestMethodNotAllowedError, [orgRow])
    ∧ handle_list_request bareCls badCtReq [orgRow]
      = (.error .requestMethodNotAllowedError, [orgRow])
    ∧ handle_update_request bareCls (fun _ => .ok ()) badCtReq "1" [orgRow]
      = (.error .requestMethodNotAllowedError, [orgRow])
    ∧ handle_delete_request bareCls badCtReq "1" [orgRow]
      = (.error .requestMethodNotAllowedError, [orgRow]) := by
  have h := c8_null_profile_rejects String bareCls (fun _ => .ok ()) "7" "1"
    badCtReq [orgRow]
  exact ⟨h.1 rfl, (h.2.1 rfl).1, (h.2.1 rfl).2, h.2.2.1 rfl, h.2.2.2 rfl⟩

/-- C5: the classifier maps the six working codes to the documented
taxonomy kinds and metadata and passes any other code through
unclassified, but the blank branch crashes: its validator loop evaluates
model._meta with the name model unbound in process_exception, so the
documented blank to AttributeTooShort row raises NameError instead. -/
theorem c5_classifier_table :
    classify_validation_error [("name", [⟨"blank", none, none⟩])]
      = .error (.nameError "model")
    ∧ classify_validation_error [("name", [⟨"null", none, none⟩])]
      = .ok (some (.modelAttributeRequiredError "name"))
    ∧ classify_validation_error [("name", [⟨"min_length", some 5, none⟩])]
      = .ok (some (.modelAttributeTooShortError "name" 5))
    ∧ classify_validation_error [("name", [⟨"max_length", some 64, none⟩])]
      = .ok (some (.modelAttributeTooLongError "name" 64))
    ∧ classify_validation_error [("email", [⟨"invalid", none, none⟩])]
      = .ok (some (.modelAttributeInvalidError "email"))
    ∧ classify_validation_error [("email", [⟨"unique", none, none⟩])]
      = .ok (some (.modelAttributeInvalidError "email"))
    ∧ classify_validation_error
        [("key", [⟨"unique_together", none, some ["organization", "key"]⟩])]
      = .ok (some (.modelFieldsUniqueTogetherError ["organization", "key"]))
    ∧ classify_validation_error [("name", [⟨"surprise", none, none⟩])]
      = .ok none := by
  exact ⟨rfl, rfl, rfl, rfl, rfl, rfl, rfl, rfl⟩

/-- C4: a collection read renders nothing under the read profile: the
mapping lambda references the undefined name read_profile, so any
collection holding at least one row raises NameError at request time; the
empty collection returns an empty data list because the lambda is never
invoked. -/
theorem c4_list_request_name_error :
    handle_list_request orgCls emptyReq [orgRow]
      = (.error (.nameError "read_profile"), [orgRow])
    ∧ handle_list_request orgCls emptyReq ([] : List (Model String))
      = (.ok (.json (.many [])), []) := by
  exact ⟨rfl, rfl⟩

/-- C1: the combinator instance mode behaves as conjunction and
disjunction with short-circuit, shown on concrete trees, but the query
mode of HasAll, HasAny, AllOf and AnyOf calls each child condition as a
function instead of calling its check_queryset method; no condition class
defines a call operator, so query mode raises TypeError instead of
producing the conjunction or disjunction of the child filters. -/
theorem c1_all_any_query_mode :
    Cond.check_model (.hasAll [.hasOrganization "organization_id",
      .hasPermission "p.read"]) row1 (some actor1) = .ok true
    ∧ Cond.check_model (.hasAll [.hasOrganization "organization_id",
      .hasPermission "p.write"]) row1 (some actor1) = .ok false
    ∧ Cond.check_model (.hasAny [.hasPermission "p.write",
      .hasPermission "p.read"]) row1 (some actor1) = .ok true
    ∧ Cond.check_model (.hasAny [.hasPermission "p.write",
      .hasPermission "p.admin"]) row1 (some actor1) = .ok false
    ∧ Cond.check_queryset (.hasAll [.hasOrganization "organization_id",
      .hasPermission "p.read"]) [row1] (some actor1) = .error .typeErrorNotCallable
    ∧ Cond.check_queryset (.hasAny [.hasOrganization "organization_id",
      .hasPermission "p.read"]) [row1] (some actor1) = .error .typeErrorNotCallable
    ∧ ACond.check_queryset (.allOf [.modelFieldIsEqualToOwnField "id" "id",
      .userHasGlobalPermission "p.read"]) [row1] (some actor1)
      = .error .typeErrorNotCallable
    ∧ ACond.check_queryset (.anyOf [.modelFieldIsEqualToOwnField "id" "id",
      .userHasGlobalPermission "p.read"]) [row1] (some actor1)
      = .error .typeErrorNotCallable := by
  refine ⟨?_, ?_, ?_, ?_, rfl, rfl, rfl, rfl⟩ <;>
    simp [Cond.check_model, Cond.checkAllLoop, Cond.checkAnyLoop, row1, actor1,
      mgetattr, assocGet]

/-! ## Validator helper lemmas -/

theorem validate_request_headers_ok_of_jsonapi {V : Type} (req : Request V)
    (hct : req.contentType = some "application/vnd.api+json") :
    validate_request_headers req = .ok () := by
  match hb : req.body with
  | .empty => simp [validate_request_headers, hb]
  | .invalidJson => simp [validate_request_headers, hb, hct]
  | .json p => simp [validate_request_headers, hb, hct]

theorem validate_request_body_is_empty_error {V : Type} (req : Request V)
    (hb : req.body ≠ .empty) :
    validate_request_body_is_empty req = .error .requestBodyNotAllowedError := by
  match h : req.body with
  | .empty => exact absurd h hb
  | .invalidJson => simp [validate_request_body_is_empty, h]
  | .json p => simp [validate_request_body_is_empty, h]

theorem attrs_loop_ok {V : Type} (profile : Profile V)
    (attrs : List (String × PyVal V))
    (h : ∀ kv ∈ attrs, camel_case_to_snake_case kv.1 ∈ profile.attributes) :
    attrsAllowedLoop profile attrs = .ok () := by
  induction attrs with
  | nil => rfl
  | cons kv rest ih =>
    have hk := h kv (by simp)
    simp only [attrsAllowedLoop, hk, if_pos]
    exact ih (fun a ha => h a (by simp [ha]))

theorem attrs_loop_error {V : Type} (profile : Profile V)
    (attrs : List (String × PyVal V))
    (h : ∃ kv ∈ attrs, camel_case_to_snake_case kv.1 ∉ profile.attributes) :
    ∃ k, k ∉ profile.attributes ∧
      attrsAllowedLoop profile attrs = .error (.modelAttributeNotAllowedError k) := by
  induction attrs with
  | nil => simp at h
  | cons kv rest ih =>
    by_cases hk : camel_case_to_snake_case kv.1 ∈ profile.attributes
    · have hrest : ∃ a ∈ rest, camel_case_to_snake_case a.1 ∉ profile.attributes := by
        obtain ⟨a, ha, hna⟩ := h
        rcases List.mem_cons.mp ha with h1 | h2
        · exact absurd (h1 ▸ hk) hna
        · exact ⟨a, h2, hna⟩
      obtain ⟨k, hkn, hke⟩ := ih hrest
      refine ⟨k, hkn, ?_⟩
      simp only [attrsAllowedLoop, hk, if_pos]
      exact hke
    · refine ⟨camel_case_to_snake_case kv.1, hk, ?_⟩
      simp only [attrsAllowedLoop, hk, if_neg]
      rfl

theorem rels_loop_ok {V : Type} (profile : Profile V)
    (rels : List (String × Option RelData))
    (h : ∀ kv ∈ rels,
      (assocGet profile.relationships (camel_case_to_snake_case kv.1)).isSome) :
    relsAllowedLoop profile rels = .ok () := by
  induction rels with
  | nil => rfl
  | cons kv rest ih =>
    have hk := h kv (by simp)
    simp only [relsAllowedLoop, hk, if_pos]
    exact ih (fun a ha => h a (by simp [ha]))

theorem validate_attrs_allowed_ok {V : Type} (profile : Profile V) (r : Resource V)
    (h : ∀ kv ∈ r.attributes.getD [],
      camel_case_to_snake_case kv.1 ∈ profile.attributes) :
    validate_attrs_allowed profile r = .ok () := by
  match ha : r.attributes with
  | none => simp [validate_attrs_allowed, ha]
  | some attrs =>
    rw [ha] at h
    simp only [validate_attrs_allowed, ha]
    exact attrs_loop_ok profile attrs h

theorem validate_rels_allowed_ok {V : Type} (profile : Profile V) (r : Resource V)
    (h : ∀ kv ∈ r.relationships.getD [],
      (assocGet profile.relationships (camel_case_to_snake_case kv.1)).isSome) :
    validate_rels_allowed profile r = .ok () := by
  match ha : r.relationships with
  | none => simp [validate_rels_allowed, ha]
  | some rels =>
    rw [ha] at h
    simp only [validate_rels_allowed, ha]
    exact rels_loop_ok profile rels h

theorem validate_request_body_update_mismatch {V : Type} (modelName : String)
    (profile : Profile V) (r : Resource V) (i bid : String)
    (hty : r.type = modelName) (hid : r.id = some bid) (hne : bid ≠ i) :
    validate_request_body modelName profile (.conforming r) (some i)
      = .error .modelIdDoesNotMatchError := by
  simp [validate_request_body, jsonapi_schema_validate, hid, hty, hne]

theorem validate_request_body_update_ok {V : Type} (modelName : String)
    (profile : Profile V) (r : Resource V) (i : String)
    (hty : r.type = modelName) (hid : r.id = some i)
    (hattrs : ∀ kv ∈ r.attributes.getD [],
      camel_case_to_snake_case kv.1 ∈ profile.attributes)
    (hrels : ∀ kv ∈ r.relationships.getD [],
      (assocGet profile.relationships (camel_case_to_snake_case kv.1)).isSome) :
    validate_request_body modelName profile (.conforming r) (some i) = .ok r := by
  simp [validate_request_body, jsonapi_schema_validate, hid, hty,
    validate_attrs_allowed_ok profile r hattrs,
    validate_rels_allowed_ok profile r hrels]

theorem validate_request_body_create_ok {V : Type} (modelName : String)
    (profile : Profile V) (r : Resource V)
    (hty : r.type = modelName)
    (hattrs : ∀ kv ∈ r.attributes.getD [],
      camel_case_to_snake_case kv.1 ∈ profile.attributes)
    (hrels : ∀ kv ∈ r.relationships.getD [],
      (assocGet profile.relationships (camel_case_to_snake_case kv.1)).isSome) :
    validate_request_body modelName profile (.conforming r) none = .ok r := by
  simp [validate_request_body, jsonapi_schema_validate, hty,
    validate_attrs_allowed_ok profile r hattrs,
    validate_rels_allowed_ok profile r hrels]

theorem validate_attrs_allowed_error {V : Type} (profile : Profile V)
    (r : Resource V)
    (h : ∃ kv ∈ r.attributes.getD [],
      camel_case_to_snake_case kv.1 ∉ profile.attributes) :
    ∃ k, k ∉ profile.attributes ∧
      validate_attrs_allowed profile r = .error (.modelAttributeNotAllowedError k) := by
  match ha : r.attributes with
  | none => rw [ha] at h; simp at h
  | some attrs =>
    rw [ha] at h
    simp only [validate_attrs_allowed, ha]
    exact attrs_loop_error profile attrs h

/-- C10 counterexample: a single-record read with a nonempty body but a
non-JSON:API Content-Type is rejected by the header check, with
RequestHeaderInvalidError rather than RequestBodyNotAllowedError. -/
theorem c10_nonempty_body_wrong_content_type :
    handle_get_request orgCls badCtReq "1" [orgRow]
      = (.error (.requestHeaderInvalidError "text/plain"), [orgRow])
    ∧ (Except.error (.requestHeaderInvalidError "text/plain")
        : Except PyErr (Response String))
      ≠ .error .requestBodyNotAllowedError := by
  refine ⟨rfl, fun h => ?_⟩
  simp at h

/-- C10 amended: with the action profile set and the JSON:API content
type, a nonempty body on single read, collection read, or delete is
rejected with RequestBodyNotAllowedError before any lookup or delete,
with the store untouched; an empty body proceeds to the lookup and, for
delete, to the deletion. -/
theorem c10_body_must_be_empty (V : Type) (cls : ResourceCls V) (req : Request V)
    (i : String) (db : List (Model V)) (rp dp : Profile V)
    (hr : cls.read_profile = some rp) (hd : cls.delete_profile = some dp)
    (hct : req.contentType = some "application/vnd.api+json") :
    (req.body ≠ .empty →
      handle_get_request cls req i db = (.error .requestBodyNotAllowedError, db)
      ∧ handle_list_request cls req db = (.error .requestBodyNotAllowedError, db)
      ∧ handle_delete_request cls req i db = (.error .requestBodyNotAllowedError, db))
    ∧ (req.body = .empty →
      handle_delete_request cls req i db =
        (match dbGet db cls.modelName i with
         | none => (.error .modelNotFoundError, db)
         | some _ => (.ok .noContent, dbDelete db cls.modelName i)))
    ∧ (req.body = .empty → dbGet db cls.modelName i = none →
      handle_get_request cls req i db = (.error .modelNotFoundError, db)) := by
  have hh := validate_request_headers_ok_of_jsonapi req hct
  refine ⟨fun hb => ?_, fun hb => ?_, fun hb hget => ?_⟩
  · have he := validate_request_body_is_empty_error req hb
    exact ⟨by simp [handle_get_request, hr, hh, he],
      by simp [handle_list_request, hr, hh, he],
      by simp [handle_delete_request, hd, hh, he]⟩
  · have he : validate_request_body_is_empty req = .ok () := by
      simp [validate_request_body_is_empty, hb]
    simp [handle_delete_request, hd, hh, he]
  · have he : validate_request_body_is_empty req = .ok () := by
      simp [validate_request_body_is_empty, hb]
    simp [handle_get_request, hr, hh, he, hget]

/-- Witness for C10 at concrete inputs: a nonempty JSON:API body is
rejected on all three actions, and an empty body reaches the delete. -/
theorem c10_body_witness :
    (handle_get_request orgCls
        { contentType := some "application/vnd.api+json", body := RawBody.invalidJson }
        "1" [orgRow]
      = (.error .requestBodyNotAllowedError, [orgRow]))
    ∧ (handle_delete_request orgCls emptyJsonReq "1" [orgRow]
      = (.ok .noContent, dbDelete [orgRow] "Organization" "1")) := by
  have h1 := c10_body_must_be_empty String orgCls
    { contentType := some "application/vnd.api+json", body := RawBody.invalidJson }
    "1" [orgRow] sProfile sProfile rfl rfl rfl
  have h2 := c10_body_must_be_empty String orgCls emptyJsonReq "1" [orgRow]
    sProfile sProfile rfl rfl rfl
  refine ⟨(h1.1 (fun hcon => RawBody.noConfusion hcon)).1, ?_⟩
  have hd := h2.2.1 rfl
  rw [hd]
  rfl

/-- An update request whose body id is 2. -/
def updReqMismatch : Request String :=
  { contentType := some "application/vnd.api+json",
    body := RawBody.json (.conforming
      { id := some "2", type := "Organization",
        attributes := some [("name", PyVal.scalar "X")] }) }

/-- C6 counterexample: an update on path id 1 with body id 2 and an empty
store fails with ModelIdDoesNotMatch, not with the NotFound that the claim
promises for a nonexistent path id. -/
theorem c6_absent_record_mismatched_id :
    handle_update_request orgCls (fun _ => .ok ()) updReqMismatch "1"
        ([] : List (Model String))
      = (.error .modelIdDoesNotMatchError, [])
    ∧ (Except.error PyErr.modelIdDoesNotMatchError : Except PyErr (Response String))
      ≠ .error .modelNotFoundError := by
  refine ⟨rfl, fun h => ?_⟩
  simp at h

/-- C6 amended: the update handler checks the wire id against the path id
before the record lookup: when they differ the request fails with
ModelIdDoesNotMatch and no record is read, validated or saved (the store
is returned unchanged, for every validator); when they match and no record
with the path id exists, the request fails with ModelNotFound, also with
the store unchanged. -/
theorem c6_update_id_check_and_lookup (V : Type) (cls : ResourceCls V)
    (clean : Model V → Except PyErr Unit) (req : Request V) (i bid : String)
    (db : List (Model V)) (prof : Profile V) (r : Resource V)
    (hp : cls.update_profile = some prof)
    (hct : req.contentType = some "application/vnd.api+json")
    (hb : req.body = .json (.conforming r))
    (hty : r.type = cls.modelName)
    (hid : r.id = some bid) :
    (bid ≠ i →
      handle_update_request cls clean req i db
        = (.error .modelIdDoesNotMatchError, db))
    ∧ (bid = i →
      (∀ kv ∈ r.attributes.getD [],
        camel_case_to_snake_case kv.1 ∈ prof.attributes) →
      (∀ kv ∈ r.relationships.getD [],
        (assocGet prof.relationships (camel_case_to_snake_case kv.1)).isSome) →
      dbGet db cls.modelName i = none →
      handle_update_request cls clean req i db
        = (.error .modelNotFoundError, db)) := by
  have hh := validate_request_headers_ok_of_jsonapi req hct
  have hparse : parse_request_body req = .ok (.conforming r) := by
    simp [parse_request_body, hb]
  refine ⟨fun hne => ?_, fun heq hattrs hrels hget => ?_⟩
  · have hv := validate_request_body_update_mismatch cls.modelName prof r i bid
      hty hid hne
    simp [handle_update_request, hp, hh, hparse, hv]
  · subst heq
    have hv := validate_request_body_update_ok cls.modelName prof r bid
      hty hid hattrs hrels
    simp [handle_update_request, hp, hh, hparse, hv, hget]

/-- Witness for C6 at concrete inputs: mismatched ids on an empty store
give the id-mismatch error; matching ids on an empty store give the
not-found error. -/
theorem c6_update_witness :
    handle_update_request orgCls (fun _ => .ok ()) updReqMismatch "9"
        ([] : List (Model String))
      = (.error .modelIdDoesNotMatchError, [])
    ∧ handle_update_request orgCls (fun _ => .ok ())
        { contentType := some "application/vnd.api+json",
          body := RawBody.json (.conforming
            { id := some "9", type := "Organization",
              attributes := some [("name", PyVal.scalar "X")] }) } "9"
        ([] : List (Model String))
      = (.error .modelNotFoundError, []) := by
  have h1 := c6_update_id_check_and_lookup String orgCls (fun _ => .ok ())
    updReqMismatch "9" "2" [] sProfile
    { id := some "2", type := "Organization",
      attributes := some [("name", PyVal.scalar "X")] }
    rfl rfl rfl rfl rfl
  have h2 := c6_update_id_check_and_lookup String orgCls (fun _ => .ok ())
    { contentType := some "application/vnd.api+json",
      body := RawBody.json (.conforming
        { id := some "9", type := "Organization",
          attributes := some [("name", PyVal.scalar "X")] }) } "9" "9" [] sProfile
    { id := some "9", type := "Organization",
      attributes := some [("name", PyVal.scalar "X")] }
    rfl rfl rfl rfl rfl
  exact ⟨h1.1 (by decide), h2.2 rfl (by decide) (by decide) rfl⟩

/-- A wire resource carrying one allowed attribute followed by one
disallowed attribute. -/
def disallowedRes : Resource String :=
  { type := "Organization",
    attributes := some [("name", PyVal.scalar "Acme"), ("secret", PyVal.scalar "x")],
    relationships := some [] }

/-- A fresh record with no attribute set. -/
def freshOrg : Model String := { ty := "Organization", id := "9", fields := [] }

/-- C3 counterexample: JSONAPIModel.from_jsonapi_resource checks the
allow-list inside its loop, so with a disallowed attribute in second
position it raises AttributeNotAllowed only after having already set the
first attribute on the target record; the record is mutated before the
failure, contradicting the claim for this inbound transformation. -/
theorem c3_from_jsonapi_resource_mutates :
    (from_jsonapi_resource ([] : List (Model String)) (fun _ => none)
        freshOrg disallowedRes sProfile).1
      = .error (.modelAttributeNotAllowedError "secret")
    ∧ mgetattr (from_jsonapi_resource ([] : List (Model String)) (fun _ => none)
        freshOrg disallowedRes sProfile).2 "name" = some (PyVal.scalar "Acme")
    ∧ mgetattr freshOrg "name" = none := by
  exact ⟨rfl, rfl, rfl⟩

theorem validate_request_body_attr_error_create {V : Type} (modelName : String)
    (prof : Profile V) (r : Resource V) (hty : r.type = modelName) (k : String)
    (hk : validate_attrs_allowed prof r = .error (.modelAttributeNotAllowedError k)) :
    validate_request_body modelName prof (.conforming r) none
      = .error (.modelAttributeNotAllowedError k) := by
  simp [validate_request_body, jsonapi_schema_validate, hty, hk]

theorem validate_request_body_attr_error_update {V : Type} (modelName : String)
    (prof : Profile V) (r : Resource V) (i : String) (hty : r.type = modelName)
    (hid : r.id = some i) (k : String)
    (hk : validate_attrs_allowed prof r = .error (.modelAttributeNotAllowedError k)) :
    validate_request_body modelName prof (.conforming r) (some i)
      = .error (.modelAttributeNotAllowedError k) := by
  simp [validate_request_body, jsonapi_schema_validate, hty, hid, hk]

/-- C3 amended: in the controller inbound path the allow-list runs inside
__validate_request_body, before any model instance is created, read or
mutated, so a wire resource with a disallowed attribute anywhere in
iteration order fails with AttributeNotAllowed carrying a disallowed
translated key, and the store is returned unchanged for every validator;
the uncalled JSONAPIModel.from_jsonapi_resource helper, by contrast, sets
the attributes preceding the disallowed one before raising. -/
theorem c3_controller_rejects_disallowed_attribute (V : Type) (cls : ResourceCls V)
    (clean : Model V → Except PyErr Unit) (newId i : String) (req : Request V)
    (db : List (Model V)) (prof : Profile V) (r : Resource V)
    (hct : req.contentType = some "application/vnd.api+json")
    (hb : req.body = .json (.conforming r))
    (hty : r.type = cls.modelName)
    (hbad : ∃ kv ∈ r.attributes.getD [],
      camel_case_to_snake_case kv.1 ∉ prof.attributes) :
    (cls.create_profile = some prof →
      ∃ k, k ∉ prof.attributes ∧
        handle_create_request cls clean newId req db
          = (.error (.modelAttributeNotAllowedError k), db))
    ∧ (cls.update_profile = some prof → r.id = some i →
      ∃ k, k ∉ prof.attributes ∧
        handle_update_request cls clean req i db
          = (.error (.modelAttributeNotAllowedError k), db)) := by
  have hh := validate_request_headers_ok_of_jsonapi req hct
  have hparse : parse_request_body req = .ok (.conforming r) := by
    simp [parse_request_body, hb]
  obtain ⟨k, hkn, hke⟩ := validate_attrs_allowed_error prof r hbad
  refine ⟨fun hp => ⟨k, hkn, ?_⟩, fun hp hid => ⟨k, hkn, ?_⟩⟩
  · have hv := validate_request_body_attr_error_create cls.modelName prof r hty k hke
    simp [handle_create_request, hp, hh, hparse, hv]
  · have hv := validate_request_body_attr_error_update cls.modelName prof r i
      hty hid k hke
    simp [handle_update_request, hp, hh, hparse, hv]

/-- A create request carrying the disallowed attribute. -/
def createBadReq : Request String :=
  { contentType := some "application/vnd.api+json",
    body := RawBody.json (.conforming disallowedRes) }

/-- Witness for C3 at a concrete input: the create handler rejects the
body holding the disallowed second attribute and leaves the store as it
was. -/
theorem c3_controller_witness :
    ∃ k, k ∉ sProfile.attributes ∧
      handle_create_request orgCls (fun _ => .ok ()) "7" createBadReq [orgRow]
        = (.error (.modelAttributeNotAllowedError k), [orgRow]) := by
  exact (c3_controller_rejects_disallowed_attribute String orgCls (fun _ => .ok ())
    "7" "1" createBadReq [orgRow] sProfile disallowedRes rfl rfl rfl
    (by decide)).1 rfl

/-! ## Association-list lemmas (proof auxiliaries for the round trip) -/

theorem assocGet_assocSet_self {α : Type} (d : List (String × α)) (k : String) (v : α) :
    assocGet (assocSet d k v) k = some v := by
  induction d with
  | nil => simp [assocSet, assocGet]
  | cons kv rest ih =>
    obtain ⟨k1, w⟩ := kv
    by_cases h : k1 = k
    · simp [assocSet, h, assocGet]
    · simp [assocSet, h, assocGet, ih]

theorem assocGet_assocSet_ne {α : Type} (d : List (String × α)) (k k' : String)
    (v : α) (h : k' ≠ k) :
    assocGet (assocSet d k v) k' = assocGet d k' := by
  induction d with
  | nil =>
    simp only [assocSet, assocGet]
    rw [if_neg (fun hc => h hc.symm)]
  | cons kv rest ih =>
    obtain ⟨k1, w⟩ := kv
    by_cases h1 : k1 = k
    · subst h1
      simp only [assocSet, if_pos rfl, assocGet]
      rw [if_neg (fun hc => h hc.symm), if_neg (fun hc => h hc.symm)]
    · simp only [assocSet, h1, if_false]
      by_cases h2 : k1 = k'
      · simp [assocGet, h2]
      · simp [assocGet, h2, ih]

theorem mgetattr_msetattr_self {V : Type} (m : Model V) (k : String) (v : PyVal V) :
    mgetattr (msetattr m k v) k = some v := by
  simp [mgetattr, msetattr, assocGet_assocSet_self]

theorem mgetattr_msetattr_ne {V : Type} (m : Model V) (k a : String) (v : PyVal V)
    (h : a ≠ k) :
    mgetattr (msetattr m k v) a = mgetattr m a := by
  simp [mgetattr, msetattr, assocGet_assocSet_ne _ _ _ _ h]

theorem mem_assocSet {α : Type} {kv' : String × α} (d : List (String × α))
    (k : String) (v : α) (h : kv' ∈ assocSet d k v) : kv' ∈ d ∨ kv' = (k, v) := by
  induction d with
  | nil => simpa [assocSet] using h
  | cons kv rest ih =>
    obtain ⟨k1, w⟩ := kv
    by_cases h1 : k1 = k
    · simp only [assocSet, h1, if_true] at h
      rcases List.mem_cons.mp h with h2 | h2
      · exact Or.inr h2
      · exact Or.inl (List.mem_cons_of_mem _ h2)
    · simp only [assocSet, h1, if_false] at h
      rcases List.mem_cons.mp h with h2 | h2
      · exact Or.inl (h2 ▸ List.mem_cons_self _ _)
      · rcases ih h2 with h3 | h3
        · exact Or.inl (List.mem_cons_of_mem _ h3)
        · exact Or.inr h3

theorem mem_keys_assocSet {α : Type} {k'' : String} (d : List (String × α))
    (k : String) (v : α) (h : k'' ∈ (assocSet d k v).map Prod.fst) :
    k'' ∈ d.map Prod.fst ∨ k'' = k := by
  obtain ⟨kv, hkv, hfst⟩ := List.mem_map.mp h
  rcases mem_assocSet d k v hkv with h1 | h1
  · exact Or.inl (hfst ▸ List.mem_map_of_mem Prod.fst h1)
  · exact Or.inr (by rw [← hfst, h1])

theorem assocSet_keys_nodup {α : Type} (d : List (String × α)) (k : String) (v : α)
    (h : (d.map Prod.fst).Nodup) : ((assocSet d k v).map Prod.fst).Nodup := by
  induction d with
  | nil => simp [assocSet]
  | cons kv rest ih =>
    obtain ⟨k1, w⟩ := kv
    simp only [List.map_cons, List.nodup_cons] at h
    by_cases h1 : k1 = k
    · subst h1
      simpa [assocSet, List.nodup_cons] using h
    · simp only [assocSet, h1, if_false, List.map_cons, List.nodup_cons]
      refine ⟨fun hc => ?_, ih h.2⟩
      rcases mem_keys_assocSet rest k v hc with h2 | h2
      · exact h.1 h2
      · exact h1 h2

theorem assocSet_ne_nil {α : Type} (d : List (String × α)) (k : String) (v : α) :
    assocSet d k v ≠ [] := by
  induction d with
  | nil => simp [assocSet]
  | cons kv rest ih =>
    obtain ⟨k1, w⟩ := kv
    by_cases h1 : k1 = k <;> simp [assocSet, h1]

/-! ## Render fold lemmas -/

/-- Proof auxiliary: the attribute dictionary that the render fold builds
when every attribute read succeeds. -/
def renderAttrsPure {V : Type} (m : Model V) (attrs : List String)
    (d0 : List (String × PyVal V)) : List (String × PyVal V) :=
  attrs.foldl (fun d a =>
    assocSet d (snake_case_to_camel_case a) ((mgetattr m a).getD PyVal.pynone)) d0

theorem renderAttrs_eq_pure {V : Type} (m : Model V) (attrs : List String)
    (d0 : List (String × PyVal V))
    (h : ∀ a ∈ attrs, (mgetattr m a).isSome) :
    (attrs.foldlM (fun d a =>
      match mgetattr m a with
      | none => throw PyErr.attributeError
      | some v => pure (assocSet d (snake_case_to_camel_case a) v)) d0
      : Except PyErr (List (String × PyVal V)))
      = .ok (renderAttrsPure m attrs d0) := by
  induction attrs generalizing d0 with
  | nil => rfl
  | cons a rest ih =>
    have ha := h a (by simp)
    match hv : mgetattr m a with
    | none => rw [hv] at ha; simp at ha
    | some v =>
      simp only [List.foldlM_cons, hv, renderAttrsPure, List.foldl_cons]
      have hrest := ih (assocSet d0 (snake_case_to_camel_case a) v)
        (fun a' ha' => h a' (by simp [ha']))
      simpa [hv] using hrest

theorem renderFold_get_preserve {V : Type} (m : Model V) (attrs : List String)
    (d0 : List (String × PyVal V)) (kk : String)
    (h : ∀ a ∈ attrs, snake_case_to_camel_case a ≠ kk) :
    assocGet (renderAttrsPure m attrs d0) kk = assocGet d0 kk := by
  induction attrs generalizing d0 with
  | nil => rfl
  | cons a rest ih =>
    simp only [renderAttrsPure, List.foldl_cons]
    rw [show (List.foldl _ _ rest : List (String × PyVal V))
      = renderAttrsPure m rest _ from rfl]
    rw [ih _ (fun a' ha' => h a' (by simp [ha'])),
      assocGet_assocSet_ne _ _ _ _ (fun hc => h a (by simp) hc.symm)]

theorem renderFold_get_mem {V : Type} (m : Model V) (attrs : List String)
    (d0 : List (String × PyVal V)) (a0 : String) (ha : a0 ∈ attrs)
    (hrt : ∀ a ∈ attrs,
      camel_case_to_snake_case (snake_case_to_camel_case a) = a) :
    assocGet (renderAttrsPure m attrs d0) (snake_case_to_camel_case a0)
      = some ((mgetattr m a0).getD PyVal.pynone) := by
  induction attrs generalizing d0 with
  | nil => simp at ha
  | cons a rest ih =>
    simp only [renderAttrsPure, List.foldl_cons]
    rw [show (List.foldl _ _ rest : List (String × PyVal V))
      = renderAttrsPure m rest _ from rfl]
    by_cases hmem : a0 ∈ rest
    · exact ih _ hmem (fun a' ha' => hrt a' (by simp [ha']))
    · have haa : a0 = a := by
        rcases List.mem_cons.mp ha with h1 | h1
        · exact h1
        · exact absurd h1 hmem
      subst haa
      have hne : ∀ a' ∈ rest, snake_case_to_camel_case a'
          ≠ snake_case_to_camel_case a0 := by
        intro a' ha' hcon
        have : a' = a0 := by
          calc a' = camel_case_to_snake_case (snake_case_to_camel_case a') :=
                (hrt a' (by simp [ha'])).symm
            _ = camel_case_to_snake_case (snake_case_to_camel_case a0) := by rw [hcon]
            _ = a0 := hrt a0 (by simp)
        exact hmem (this ▸ ha')
      rw [renderFold_get_preserve m rest _ _ hne, assocGet_assocSet_self]

theorem mem_renderFold {V : Type} (m : Model V) (attrs : List String)
    (d0 : List (String × PyVal V)) {kv : String × PyVal V}
    (h : kv ∈ renderAttrsPure m attrs d0) :
    kv ∈ d0 ∨ ∃ a ∈ attrs,
      kv = (snake_case_to_camel_case a, (mgetattr m a).getD PyVal.pynone) := by
  induction attrs generalizing d0 with
  | nil => exact Or.inl h
  | cons a rest ih =>
    simp only [renderAttrsPure, List.foldl_cons] at h
    rcases ih (assocSet d0 (snake_case_to_camel_case a)
        ((mgetattr m a).getD PyVal.pynone)) h with h1 | h1
    · rcases mem_assocSet _ _ _ h1 with h2 | h2
      · exact Or.inl h2
      · exact Or.inr ⟨a, by simp, h2⟩
    · obtain ⟨a', ha', he⟩ := h1
      exact Or.inr ⟨a', by simp [ha'], he⟩

theorem renderFold_keys_nodup {V : Type} (m : Model V) (attrs : List String)
    (d0 : List (String × PyVal V)) (h : (d0.map Prod.fst).Nodup) :
    ((renderAttrsPure m attrs d0).map Prod.fst).Nodup := by
  induction attrs generalizing d0 with
  | nil => exact h
  | cons a rest ih =>
    simp only [renderAttrsPure, List.foldl_cons]
    exact ih _ (assocSet_keys_nodup d0 _ _ h)

theorem renderFold_ne_nil_of_d0 {V : Type} (m : Model V) (attrs : List String)
    (d0 : List (String × PyVal V)) (h : d0 ≠ []) :
    renderAttrsPure m attrs d0 ≠ [] := by
  induction attrs generalizing d0 with
  | nil => exact h
  | cons a rest ih =>
    simp only [renderAttrsPure, List.foldl_cons]
    exact ih _ (assocSet_ne_nil _ _ _)

theorem renderFold_ne_nil {V : Type} (m : Model V) (a : String) (rest : List String)
    (d0 : List (String × PyVal V)) :
    renderAttrsPure m (a :: rest) d0 ≠ [] := by
  simp only [renderAttrsPure, List.foldl_cons]
  exact renderFold_ne_nil_of_d0 m rest _ (assocSet_ne_nil _ _ _)

/-! ## Populate fold lemmas -/

theorem popFold_preserve {V : Type} (p : Profile V) (d : List (String × PyVal V))
    (m0 : Model V) (a : String) (h : ∀ kv ∈ d, transName p kv.1 ≠ a) :
    mgetattr (d.foldl (fun m kv => msetattr m (transName p kv.1) kv.2) m0) a
      = mgetattr m0 a := by
  induction d generalizing m0 with
  | nil => rfl
  | cons kv rest ih =>
    simp only [List.foldl_cons]
    rw [ih _ (fun kv' h' => h kv' (by simp [h']))]
    exact mgetattr_msetattr_ne m0 _ a kv.2 (fun hc => h kv (by simp) hc.symm)

theorem popFold_get {V : Type} (p : Profile V) (d : List (String × PyVal V))
    (m0 : Model V) (a : String)
    (hnd : (d.map Prod.fst).Nodup)
    (hH : ∀ kv ∈ d, ∃ a', kv.1 = snake_case_to_camel_case a'
      ∧ transName p kv.1 = a'
      ∧ camel_case_to_snake_case (snake_case_to_camel_case a') = a')
    (hrt : camel_case_to_snake_case (snake_case_to_camel_case a) = a) :
    mgetattr (d.foldl (fun m kv => msetattr m (transName p kv.1) kv.2) m0) a
      = (match assocGet d (snake_case_to_camel_case a) with
         | some v => some v
         | none => mgetattr m0 a) := by
  induction d generalizing m0 with
  | nil => rfl
  | cons kv rest ih =>
    obtain ⟨a1, hk1, htr1, hrt1⟩ := hH kv (by simp)
    simp only [List.map_cons, List.nodup_cons] at hnd
    by_cases hkey : kv.1 = snake_case_to_camel_case a
    · have ha1 : a1 = a := by
        have hcam : snake_case_to_camel_case a1 = snake_case_to_camel_case a := by
          rw [← hk1, hkey]
        calc a1 = camel_case_to_snake_case (snake_case_to_camel_case a1) := hrt1.symm
          _ = camel_case_to_snake_case (snake_case_to_camel_case a) := by rw [hcam]
          _ = a := hrt
      have hrest : ∀ kv' ∈ rest, transName p kv'.1 ≠ a := by
        intro kv' hmem heq
        obtain ⟨a2, hk2, htr2, _⟩ := hH kv' (by simp [hmem])
        have ha2 : a2 = a := by rw [← htr2, heq]
        have hsame : kv'.1 = kv.1 := by rw [hk2, ha2, ← hkey]
        exact hnd.1 (hsame ▸ List.mem_map_of_mem Prod.fst hmem)
      simp only [List.foldl_cons]
      rw [popFold_preserve p rest _ a hrest, htr1, ha1, mgetattr_msetattr_self]
      simp [assocGet, hkey]
    · have ha1 : a1 ≠ a := fun hcon => hkey (by rw [hk1, hcon])
      simp only [List.foldl_cons]
      rw [ih _ hnd.2 (fun kv' h' => hH kv' (by simp [h']))]
      have hget : assocGet (kv :: rest) (snake_case_to_camel_case a)
          = assocGet rest (snake_case_to_camel_case a) := by
        obtain ⟨k1, w⟩ := kv
        simp only at hkey
        simp [assocGet, hkey]
      rw [hget]
      match assocGet rest (snake_case_to_camel_case a) with
      | some v => rfl
      | none =>
        simp only
        rw [htr1]
        exact mgetattr_msetattr_ne m0 a1 a kv.2 (fun hc => ha1 hc.symm)

theorem render_ok_of_no_rels {V : Type} (p : Profile V) (r : Model V)
    (hrel : p.relationships = [])
    (hdef : ∀ a ∈ p.attributes, (mgetattr r a).isSome) :
    render_model_to_resource r p = .ok
      { id := some r.id, type := r.ty,
        attributes := if (renderAttrsPure r p.attributes []).length > 0
          then some (renderAttrsPure r p.attributes []) else none,
        relationships := none } := by
  simp only [render_model_to_resource]
  rw [renderAttrs_eq_pure r p.attributes [] hdef, hrel]
  rfl

/-- C2: rendering a record under a profile and then populating a fresh
record of the same type from the wire result yields a record equal to the
original on every allowed attribute. Hypotheses delimiting the claim: the
allowed attribute names are well-formed snake-case identifiers, so the
outbound wire translation is inverted by the inbound one; the attribute
rename map is the identity where it touches the allowed attributes, the
only self-consistent-inverse shape since rendering applies no renaming;
the profile declares no relationships; and the record defines its allowed
attributes. -/
theorem c2_render_populate_roundtrip (V : Type) (p : Profile V) (r : Model V)
    (db : List (Model V)) (newId : String)
    (hgood : ∀ a ∈ p.attributes, goodSnake a = true)
    (hmap : ∀ a ∈ p.attributes,
      assocGet p.attribute_mappings a = none
      ∨ assocGet p.attribute_mappings a = some a)
    (hrel : p.relationships = [])
    (hdef : ∀ a ∈ p.attributes, (mgetattr r a).isSome) :
    ∃ res m2,
      render_model_to_resource r p = .ok res
      ∧ populate_model_from_resource db
          { ty := r.ty, id := newId, fields := [] } res p = .ok m2
      ∧ ∀ a ∈ p.attributes, mgetattr m2 a = mgetattr r a := by
  have hrt : ∀ a ∈ p.attributes,
      camel_case_to_snake_case (snake_case_to_camel_case a) = a :=
    fun a ha => camel_snake_roundtrip (hgood a ha)
  have hrender := render_ok_of_no_rels p r hrel hdef
  match hpa : p.attributes with
  | [] =>
    rw [hpa] at hrender
    refine ⟨_, { ty := r.ty, id := newId, fields := [] }, hrender, ?_, ?_⟩
    · rfl
    · intro a ha
      simp at ha
  | a0 :: arest =>
    rw [hpa] at hrender
    have hne : renderAttrsPure r (a0 :: arest) [] ≠ [] := renderFold_ne_nil r a0 arest []
    have hlen : (renderAttrsPure r (a0 :: arest) []).length > 0 :=
      List.length_pos.mpr hne
    rw [if_pos hlen] at hrender
    refine ⟨_, _, hrender, rfl, ?_⟩
    rw [hpa] at hrt hmap hdef
    intro a ha
    show mgetattr (List.foldl
      (fun m kv => msetattr m (transName p kv.1) kv.2)
      { ty := r.ty, id := newId, fields := [] }
      (renderAttrsPure r (a0 :: arest) [])) a = mgetattr r a
    have hH : ∀ kv ∈ renderAttrsPure r (a0 :: arest) [],
        ∃ a', kv.1 = snake_case_to_camel_case a'
          ∧ transName p kv.1 = a'
          ∧ camel_case_to_snake_case (snake_case_to_camel_case a') = a' := by
      intro kv hkv
      rcases mem_renderFold r (a0 :: arest) [] hkv with hin | ⟨a', ha', he⟩
      · simp at hin
      · refine ⟨a', by rw [he], ?_, hrt a' ha'⟩
        rw [he]
        show transName p (snake_case_to_camel_case a') = a'
        unfold transName
        rw [hrt a' ha']
        rcases hmap a' ha' with hm | hm <;> simp [hm]
    have hnd := renderFold_keys_nodup r (a0 :: arest)
      ([] : List (String × PyVal V)) (by simp)
    rw [popFold_get p _ _ a hnd hH (hrt a ha)]
    rw [renderFold_get_mem r (a0 :: arest) [] a ha hrt]
    obtain ⟨v, hv⟩ := Option.isSome_iff_exists.mp (hdef a ha)
    rw [hv]
    rfl

/-- Witness for C2: a concrete profile with two snake-case attributes and
an empty rename map round-trips a concrete record. -/
theorem c2_roundtrip_witness :
    ∃ res m2,
      render_model_to_resource
        ({ ty := "Organization", id := "1",
           fields := [("name", PyVal.scalar "Acme"),
             ("created_at", PyVal.scalar "2021")] } : Model String)
        { attributes := ["name", "created_at"] } = .ok res
      ∧ populate_model_from_resource ([] : List (Model String))
          { ty := "Organization", id := "7", fields := [] } res
          { attributes := ["name", "created_at"] } = .ok m2
      ∧ ∀ a ∈ ["name", "created_at"],
          mgetattr m2 a = mgetattr
            ({ ty := "Organization", id := "1",
               fields := [("name", PyVal.scalar "Acme"),
                 ("created_at", PyVal.scalar "2021")] } : Model String) a := by
  exact c2_render_populate_roundtrip String { attributes := ["name", "created_at"] }
    { ty := "Organization", id := "1",
      fields := [("name", PyVal.scalar "Acme"), ("created_at", PyVal.scalar "2021")] }
    [] "7" (by decide) (by decide) rfl (by decide)

end Djf
